import Mathlib

/-
Shallow embedding of src/fetch_prices.py (gold-discount-checker).

Python floats are modelled as rationals extended with NaN and signed
infinities (the only non-finite values the script can see), pandas Series
as association lists from integer timestamps to such values, and network
calls as abstract adapter results (an absent result models both a failed
request and a missing credential, exactly as the source collapses them).
Fallible paths return Option; the one spot where the source can raise
(iloc[-1] on an empty frame inside main's fallback block) is modelled with
Except.
-/

set_option autoImplicit false

/-- Python float values as they flow through the script: a finite rational,
NaN, or a signed infinity. -/
inductive FP where
  | fin (q : ℚ)
  | nan
  | inf
  | ninf
deriving DecidableEq

namespace FP

/-- math.isnan / pandas NaN test. -/
def isNaN : FP → Bool
  | nan => true
  | _ => false

/-- math.isfinite. -/
def isfinite : FP → Bool
  | fin _ => true
  | _ => false

/-- Python truthiness of a float: 0.0 is falsy, every other float (NaN and
the infinities included) is truthy. -/
def truthy : FP → Bool
  | fin q => decide (q ≠ 0)
  | _ => true

/-- Python float multiplication. -/
def mul : FP → FP → FP
  | nan, _ => nan
  | _, nan => nan
  | fin a, fin b => fin (a * b)
  | fin a, inf => if 0 < a then inf else if a < 0 then ninf else nan
  | fin a, ninf => if 0 < a then ninf else if a < 0 then inf else nan
  | inf, fin b => if 0 < b then inf else if b < 0 then ninf else nan
  | ninf, fin b => if 0 < b then ninf else if b < 0 then inf else nan
  | inf, inf => inf
  | inf, ninf => ninf
  | ninf, inf => ninf
  | ninf, ninf => inf

/-- Python float division.  Division by exactly 0.0 raises ZeroDivisionError
in Python; that branch is unreachable on the script's calc path (the
truthiness guard keeps every factor nonzero, see the claim C9 theorem), and
is mapped to nan here. -/
def div : FP → FP → FP
  | nan, _ => nan
  | _, nan => nan
  | fin a, fin b => if b = 0 then nan else fin (a / b)
  | fin _, inf => fin 0
  | fin _, ninf => fin 0
  | inf, fin b => if 0 < b then inf else if b < 0 then ninf else nan
  | ninf, fin b => if 0 < b then ninf else if b < 0 then inf else nan
  | inf, inf => nan
  | inf, ninf => nan
  | ninf, inf => nan
  | ninf, ninf => nan

/-- Python float subtraction. -/
def sub : FP → FP → FP
  | nan, _ => nan
  | _, nan => nan
  | fin a, fin b => fin (a - b)
  | inf, fin _ => inf
  | ninf, fin _ => ninf
  | fin _, inf => ninf
  | fin _, ninf => inf
  | inf, inf => nan
  | inf, ninf => inf
  | ninf, inf => ninf
  | ninf, ninf => nan

/-- Python comparison v < c against a finite bound (False on NaN). -/
def ltq : FP → ℚ → Bool
  | fin a, c => decide (a < c)
  | nan, _ => false
  | inf, _ => false
  | ninf, _ => true

/-- Python comparison v > c against a finite bound (False on NaN). -/
def gtq : FP → ℚ → Bool
  | fin a, c => decide (c < a)
  | nan, _ => false
  | inf, _ => true
  | ninf, _ => false

end FP

/-- A pandas Series of close prices: (timestamp, value) pairs, as produced by
td_series / yf_series_close / Ticker.history(...)["Close"].  Timestamps are
opaque integer tokens. -/
abbrev Series := List (Nat × FP)

/-- pandas Series.dropna: drop the NaN entries. -/
def dropna (s : Series) : Series :=
  s.filter fun p => !(p.2.isNaN)

/-- Provenance timestamp attached to a resolved price: either the quote
endpoint's ISO datetime string, the timestamp of the last bar of a series,
or the sentinel string "fast_info" used for the quote-only strategy. -/
inductive PTime where
  | iso (n : Nat)
  | bar (n : Nat)
  | fastInfo
deriving DecidableEq

/-- The five yfinance adapter results consumed by yf_last_price_smart:
the Close columns of history(period, interval) for the four history
strategies (none = exception / empty answer), and the fast_info
last_price field (none = missing key or exception). -/
structure YFEnv where
  h1m1d : Option Series
  h5m5d : Option Series
  h15m60d : Option Series
  fastInfoLast : Option FP
  h1d5d : Option Series

/-- Inner helper hist_last of yf_last_price_smart: if the history frame is
present and nonempty, dropna its Close column and return the last value with
its timestamp; otherwise report absence. -/
def hist_last (h : Option Series) : Option (FP × PTime) :=
  match h with
  | none => none
  | some hs =>
    if 0 < hs.length then
      match (dropna hs).getLast? with
      | some p => some (p.2, PTime.bar p.1)
      | none => none
    else none

/-- The fast_info strategy of yf_last_price_smart: the last_price field
succeeds only when present, truthy (nonzero) and finite; its timestamp is
the sentinel "fast_info". -/
def fastQuote (o : Option FP) : Option (FP × PTime) :=
  match o with
  | some lp => if lp.truthy && lp.isfinite then some (lp, PTime.fastInfo) else none
  | none => none

/-- yf_last_price_smart: try 1m/1d, 5m/5d, 15m/60d, fast_info, 1d/5d in
order, returning the first success, else absence. -/
def yf_last_price_smart (env : YFEnv) : Option (FP × PTime) :=
  match hist_last env.h1m1d with
  | some r => some r
  | none =>
    match hist_last env.h5m5d with
    | some r => some r
    | none =>
      match hist_last env.h15m60d with
      | some r => some r
      | none =>
        match fastQuote env.fastInfoLast with
        | some r => some r
        | none =>
          match hist_last env.h1d5d with
          | some r => some r
          | none => none

/-- Series lookup by timestamp (pandas index lookup). -/
def lookupTs (s : Series) (t : Nat) : Option FP :=
  (s.find? fun p => p.1 == t).map Prod.snd

/-- The sorted union of the three timestamp indexes, as produced by
pd.concat(axis=1) on uniquely-indexed series. -/
def joinKeys (x j e : Series) : List Nat :=
  List.insertionSort (fun a b => a ≤ b)
    ((x.map Prod.fst ++ j.map Prod.fst ++ e.map Prod.fst).dedup)

/-- One row of the final aligned frame (all values finite, as rationals). -/
structure Row where
  t : Nat
  xau : ℚ
  jpy : ℚ
  etf : ℚ
deriving DecidableEq

/-- pd.concat([...], axis=1).dropna(): the rows of the outer join whose
three cells are all present and none NaN. -/
def joinDropna (x j e : Series) : List (Nat × FP × FP × FP) :=
  (joinKeys x j e).filterMap fun t =>
    match lookupTs x t, lookupTs j t, lookupTs e t with
    | some a, some b, some c =>
      if a.isNaN || b.isNaN || c.isNaN then none else some (t, a, b, c)
    | _, _, _ => none

/-- pandas .tail(n): the last n elements. -/
def tailList {α : Type} (l : List α) (n : Nat) : List α :=
  l.drop (l.length - n)

/-- df[np.isfinite(df).all(1)]: keep only the all-finite rows, exposing
their values as rationals. -/
def finRows (l : List (Nat × FP × FP × FP)) : List Row :=
  l.filterMap fun q =>
    match q with
    | (t, FP.fin a, FP.fin b, FP.fin c) => some ⟨t, a, b, c⟩
    | _ => none

/-- align_join from the source: absent if any input series is absent;
otherwise outer-join and dropna, apply .tail(tail) if tail is truthy,
filter to the all-finite rows, and return the frame if nonempty. -/
def align_join (ox oj oe : Option Series) (tail : Option Nat) : Option (List Row) :=
  match ox, oj, oe with
  | some x, some j, some e =>
    let df0 := joinDropna x j e
    let df1 := match tail with
      | some n => if n ≠ 0 then tailList df0 n else df0
      | none => df0
    let df2 := finRows df1
    if 0 < df2.length then some df2 else none
  | _, _, _ => none

/-- Spec-side aligner, following the spec's words for claim C5: after the
inner join every row containing a non-finite value is dropped, and only then
is the most recent tail taken.  (The source instead takes the tail before
dropping the rows containing infinities.) -/
def align_join_spec (ox oj oe : Option Series) (tail : Option Nat) : Option (List Row) :=
  match ox, oj, oe with
  | some x, some j, some e =>
    let cleaned := finRows (joinDropna x j e)
    let df1 := match tail with
      | some n => if n ≠ 0 then tailList cleaned n else cleaned
      | none => cleaned
    if 0 < df1.length then some df1 else none
  | _, _, _ => none

/-- num of estimate_k: float((X*Y).sum()) with X = xau*jpy, Y = etf. -/
def skNum (l : List Row) : ℚ :=
  (l.map fun r => r.xau * r.jpy * r.etf).sum

/-- den of estimate_k: float((X*X).sum()) with X = xau*jpy. -/
def skDen (l : List Row) : ℚ :=
  (l.map fun r => (r.xau * r.jpy) * (r.xau * r.jpy)).sum

/-- estimate_k from the source: absent if the frame is absent or has fewer
than 5 rows or a nonpositive sum-of-squares denominator; otherwise the
closed-form least-squares ratio num/den. -/
def estimate_k (odf : Option (List Row)) : Option ℚ :=
  match odf with
  | none => none
  | some l =>
    if l.length < 5 then none
    else if skDen l ≤ 0 then none
    else some (skNum l / skDen l)

/-- main's local helper calc(the_k): under the Python truthiness guard
`the_k and xauusd and usdjpy and price1540`, theo = xauusd*usdjpy*the_k and
dev = price1540/theo - 1.0; otherwise both outputs are None.  (the_k comes
from estimate_k, hence is a finite rational when present.) -/
def calcDev (the_k : Option ℚ) (xauusd usdjpy price1540 : Option FP) :
    Option FP × Option FP :=
  match the_k, xauusd, usdjpy, price1540 with
  | some k, some x, some j, some e =>
    if k ≠ 0 ∧ x.truthy ∧ j.truthy ∧ e.truthy then
      let theo := (x.mul j).mul (FP.fin k)
      (some theo, some ((e.div theo).sub (FP.fin 1)))
    else (none, none)
  | _, _, _, _ => (none, none)

/-- Price part of a td_price result: the quote price, if the call
succeeded. -/
def tdQuotePrice (q : Option (FP × Option Nat)) : Option FP :=
  q.map Prod.fst

/-- Time part of a td_price result: the quote's ISO datetime, when the call
succeeded and the payload carried one. -/
def tdQuoteTime (q : Option (FP × Option Nat)) : Option PTime :=
  match q with
  | some (_, some n) => some (PTime.iso n)
  | _ => none

/-- float(s.dropna().iloc[-1]) and str(s.dropna().index[-1]) on a td_series
result; absence of a last element models the IndexError Python raises
there. -/
def tdTailPoint (s : Series) : Except Unit (FP × Nat) :=
  match (dropna s).getLast? with
  | some p => Except.ok (p.2, p.1)
  | none => Except.error ()

/-- One `if x5 is not None:` arm of main's fallback block: a present series
overwrites the pending (price, time) pair with its dropna tail, an absent
one leaves the pair unchanged. -/
def fallbackStep (cur : Option FP × Option PTime) (s : Option Series) :
    Except Unit (Option FP × Option PTime) :=
  match s with
  | none => Except.ok cur
  | some ser =>
    match tdTailPoint ser with
    | Except.ok p => Except.ok (some p.1, some (PTime.bar p.2))
    | Except.error e => Except.error e

/-- Lines 136-145 of main: quote XAU/USD and USD/JPY; if either price is
None, fetch both 5-minute series and let each present series overwrite its
instrument's (price, time), the XAU extraction running first. -/
def resolveGoldFx (qx qj : Option (FP × Option Nat)) (sx sj : Option Series) :
    Except Unit ((Option FP × Option PTime) × (Option FP × Option PTime)) :=
  let xq := (tdQuotePrice qx, tdQuoteTime qx)
  let jq := (tdQuotePrice qj, tdQuoteTime qj)
  if xq.1 = none ∨ jq.1 = none then
    match fallbackStep xq sx with
    | Except.error e => Except.error e
    | Except.ok xr =>
      match fallbackStep jq sj with
      | Except.error e => Except.error e
      | Except.ok jr => Except.ok (xr, jr)
  else Except.ok (xq, jq)

/-- Day-mode ratio constant from main: align the daily series with tail=10
and, if the frame is present, run estimate_k on its last 3 rows. -/
def dayModeK (x_day j_day e_day : Option Series) : Option ℚ :=
  match align_join x_day j_day e_day (some 10) with
  | none => none
  | some df => estimate_k (some (tailList df 3))

/-- Day-mode triple (k_day, (theo_day, dev_day)) as main computes it. -/
def dayModeOutputs (x_day j_day e_day : Option Series)
    (xauusd usdjpy price1540 : Option FP) :
    Option ℚ × (Option FP × Option FP) :=
  let k := dayModeK x_day j_day e_day
  (k, calcDev k xauusd usdjpy price1540)

/-- Guard `p and p < c` of the sanity checks (short-circuit on None). -/
def warnGuardLt (o : Option FP) (c : ℚ) : Bool :=
  match o with
  | none => false
  | some v => v.truthy && v.ltq c

/-- Guard `p and p > c` of the sanity checks (short-circuit on None). -/
def warnGuardGt (o : Option FP) (c : ℚ) : Bool :=
  match o with
  | none => false
  | some v => v.truthy && v.gtq c

/-- Guard `usdjpy and (usdjpy < 50 or usdjpy > 500)` of the sanity
checks. -/
def warnGuardJpy (o : Option FP) : Bool :=
  match o with
  | none => false
  | some v => v.truthy && (v.ltq 50 || v.gtq 500)

/-- The warn list main builds before writing the output. -/
def sanityWarnings (xauusd usdjpy : Option FP) : List String :=
  (if warnGuardLt xauusd 1000 then ["XAU/USD too low?"] else []) ++
  (if warnGuardGt xauusd 8000 then ["XAU/USD too high?"] else []) ++
  (if warnGuardJpy usdjpy then ["USD/JPY out of range?"] else [])

/-- The output record main writes to data.json (numeric fields plus the
optional warnings key; the provenance and clock strings are untouched by
the sanity checks and omitted). -/
structure OutRecord where
  xauusd : Option FP
  usdjpy : Option FP
  price1540 : Option FP
  k_day : Option ℚ
  theo_day : Option FP
  dev_day : Option FP
  k_5m : Option ℚ
  theo_5m : Option FP
  dev_5m : Option FP
  k_15m : Option ℚ
  theo_15m : Option FP
  dev_15m : Option FP
  warnings : Option (List String)
deriving DecidableEq

/-- Assembly of the out dict: fields as computed, plus the warnings key
exactly when the warn list is nonempty. -/
def buildOut (xauusd usdjpy price1540 : Option FP)
    (k_day : Option ℚ) (theo_day dev_day : Option FP)
    (k_5m : Option ℚ) (theo_5m dev_5m : Option FP)
    (k_15m : Option ℚ) (theo_15m dev_15m : Option FP) : OutRecord :=
  ⟨xauusd, usdjpy, price1540, k_day, theo_day, dev_day,
   k_5m, theo_5m, dev_5m, k_15m, theo_15m, dev_15m,
   if sanityWarnings xauusd usdjpy ≠ [] then some (sanityWarnings xauusd usdjpy) else none⟩

/-! ### Helper lemmas -/

theorem tailList_length_le {α : Type} (l : List α) (n : Nat) :
    (tailList l n).length ≤ n := by
  simp only [tailList, List.length_drop]
  omega

theorem mem_tailList {α : Type} {l : List α} {n : Nat} {a : α}
    (h : a ∈ tailList l n) : a ∈ l := by
  exact List.mem_of_mem_drop h

theorem lookupTs_mem {s : Series} {t : Nat} {a : FP}
    (h : lookupTs s t = some a) : (t, a) ∈ s := by
  unfold lookupTs at h
  rcases Option.map_eq_some'.1 h with ⟨p, hp, hpa⟩
  have hmem := List.mem_of_find?_eq_some hp
  have hkey := List.find?_some hp
  have : p.1 = t := by simpa using hkey
  have : p = (t, a) := by
    cases p
    simp_all
  rwa [this] at hmem

theorem lookupTs_isSome_iff {s : Series} {t : Nat} :
    (∃ a, lookupTs s t = some a) ↔ t ∈ s.map Prod.fst := by
  constructor
  · rintro ⟨a, ha⟩
    exact List.mem_map.2 ⟨(t, a), lookupTs_mem ha, rfl⟩
  · intro hmem
    rcases List.mem_map.1 hmem with ⟨p, hp, hpt⟩
    have : (s.find? fun q => q.1 == t).isSome := by
      rw [List.find?_isSome]
      exact ⟨p, hp, by simpa using hpt⟩
    rcases Option.isSome_iff_exists.1 this with ⟨q, hq⟩
    exact ⟨q.2, by simp [lookupTs, hq]⟩

theorem mem_joinKeys {x j e : Series} {t : Nat} :
    t ∈ joinKeys x j e ↔
      t ∈ x.map Prod.fst ∨ t ∈ j.map Prod.fst ∨ t ∈ e.map Prod.fst := by
  unfold joinKeys
  rw [List.mem_insertionSort, List.mem_dedup]
  simp [or_assoc]

theorem mem_joinDropna {x j e : Series} {t : Nat} {a b c : FP} :
    (t, a, b, c) ∈ joinDropna x j e ↔
      t ∈ joinKeys x j e ∧ lookupTs x t = some a ∧ lookupTs j t = some b ∧
        lookupTs e t = some c ∧ a.isNaN = false ∧ b.isNaN = false ∧
        c.isNaN = false := by
  unfold joinDropna
  rw [List.mem_filterMap]
  constructor
  · rintro ⟨t0, ht0, hf⟩
    cases hx : lookupTs x t0 with
    | none => rw [hx] at hf; cases hy : lookupTs j t0 <;> simp [hy] at hf
    | some a0 =>
      cases hy : lookupTs j t0 with
      | none => rw [hx, hy] at hf; simp at hf
      | some b0 =>
        cases hz : lookupTs e t0 with
        | none => rw [hx, hy, hz] at hf; simp at hf
        | some c0 =>
          rw [hx, hy, hz] at hf
          by_cases hn : a0.isNaN || b0.isNaN || c0.isNaN
          · simp [hn] at hf
          · simp only [hn, if_false, Option.some.injEq] at hf
            obtain ⟨h1, h2, h3, h4⟩ := by
              simpa [Prod.ext_iff] using hf
            simp only [Bool.or_eq_true, not_or, Bool.not_eq_true] at hn
            subst h1
            refine ⟨ht0, ?_, ?_, ?_, ?_, ?_, ?_⟩ <;> simp_all
  · rintro ⟨hk, hx, hy, hz, ha, hb, hc⟩
    refine ⟨t, hk, ?_⟩
    rw [hx, hy, hz]
    simp [ha, hb, hc]

/-- A row survives the finiteness filter exactly when its three cells are
finite. -/
theorem mem_finRows {l : List (Nat × FP × FP × FP)} {r : Row} :
    r ∈ finRows l ↔ (r.t, FP.fin r.xau, FP.fin r.jpy, FP.fin r.etf) ∈ l := by
  unfold finRows
  rw [List.mem_filterMap]
  constructor
  · rintro ⟨⟨t0, a0, b0, c0⟩, hmem, hf⟩
    obtain ⟨rt, rx, rj, re⟩ := r
    cases a0 <;> cases b0 <;> cases c0 <;> simp_all [Row.mk.injEq]
  · intro hmem
    exact ⟨(r.t, FP.fin r.xau, FP.fin r.jpy, FP.fin r.etf), hmem, rfl⟩

theorem fpTruthyMul {a b : FP} (ha : a.truthy = true) (hb : b.truthy = true) :
    (a.mul b).truthy = true := by
  have h1 : ∀ q : ℚ,
      FP.truthy (if 0 < q then FP.inf else if q < 0 then FP.ninf else FP.nan) = true := by
    intro q
    split
    · rfl
    · split <;> rfl
  have h2 : ∀ q : ℚ,
      FP.truthy (if 0 < q then FP.ninf else if q < 0 then FP.inf else FP.nan) = true := by
    intro q
    split
    · rfl
    · split <;> rfl
  cases a <;> cases b <;>
    simp only [FP.mul] <;>
    first
      | rfl
      | exact h1 _
      | exact h2 _
      | (simp only [FP.truthy, decide_eq_true_eq] at ha hb ⊢
         exact mul_ne_zero ha hb)

theorem fpTruthyNeFinZero {a : FP} (ha : a.truthy = true) : a ≠ FP.fin 0 := by
  cases a <;> simp_all [FP.truthy]

/-! ### Claim theorems -/

/-- Claim C2: in every run, the day-mode outputs k_day, theo_day and dev_day
are absent, because estimate_k is applied to the last 3 rows of the daily
alignment while it requires at least 5 rows. -/
theorem c2_day_mode_always_absent
    (x j e : Option Series) (xau jpy etf : Option FP) :
    dayModeOutputs x j e xau jpy etf = (none, (none, none)) := by
  have hk : dayModeK x j e = none := by
    unfold dayModeK
    cases h : align_join x j e (some 10) with
    | none => rfl
    | some df =>
      have hlen : (tailList df 3).length < 5 :=
        lt_of_le_of_lt (tailList_length_le df 3) (by norm_num)
      simp [estimate_k, hlen]
  cases xau <;> cases jpy <;> cases etf <;>
    simp [dayModeOutputs, hk, calcDev]

/-- Claim C7: estimate_k yields absence exactly when its frame is absent,
has fewer than 5 rows, or has a nonpositive sum-of-squares denominator;
the fewer-than-5-rows case is absent regardless of the values. -/
theorem c7_estimator_absence :
    estimate_k none = none ∧
      ∀ l : List Row,
        (estimate_k (some l) = none ↔ l.length < 5 ∨ skDen l ≤ 0) := by
  refine ⟨rfl, fun l => ?_⟩
  by_cases h1 : l.length < 5
  · simp [estimate_k, h1]
  · by_cases h2 : skDen l ≤ 0 <;> simp [estimate_k, h1, h2]

/-- The 5-row window of claim C8: xau·jpy runs through 1,2,3,4,5 while the
etf column runs through 2,4,6,8,10. -/
def c8window : List Row :=
  [⟨0, 1, 1, 2⟩, ⟨1, 2, 1, 4⟩, ⟨2, 3, 1, 6⟩, ⟨3, 4, 1, 8⟩, ⟨4, 5, 1, 10⟩]

/-- Claim C8: on a present frame passing the at-least-5-rows and positive
denominator guards, estimate_k is the closed-form least-squares ratio
Σ(xy)/Σ(x²); on the window with x = 1..5 and y = 2,4,6,8,10 it is exactly
2. -/
theorem c8_least_squares_ratio :
    (∀ l : List Row, ¬ l.length < 5 → ¬ skDen l ≤ 0 →
        estimate_k (some l) = some (skNum l / skDen l)) ∧
      estimate_k (some c8window) = some 2 := by
  constructor
  · intro l h1 h2
    simp [estimate_k, h1, h2]
  · simp [estimate_k, c8window, skNum, skDen]
    norm_num

/-- Claim C8 witness: the general formula applied to the concrete window. -/
theorem c8_least_squares_ratio_witness :
    estimate_k (some c8window) = some (skNum c8window / skDen c8window) :=
  c8_least_squares_ratio.1 c8window (by decide)
    (by norm_num [skDen, c8window])

/-- Claim C9: when calc produces outputs, theo = xauusd·usdjpy·k and
dev = price1540/theo − 1 (stated on finite nonzero inputs, where the
truthiness guard passes), outputs are present only if k and all three live
prices are present and theo is nonzero, and the example k=2, spot=100,
fx=150, etf=30500 gives theo = 30000 and dev = 1/60. -/
theorem c9_theo_dev :
    (∀ k a b c : ℚ, k ≠ 0 → a ≠ 0 → b ≠ 0 → c ≠ 0 →
        calcDev (some k) (some (FP.fin a)) (some (FP.fin b)) (some (FP.fin c))
            = (some (FP.fin (a * b * k)), some (FP.fin (c / (a * b * k) - 1)))
          ∧ (a * b * k : ℚ) ≠ 0) ∧
      (∀ (ok : Option ℚ) (oa ob oc : Option FP) (th dv : FP),
        calcDev ok oa ob oc = (some th, some dv) →
          ok ≠ none ∧ oa ≠ none ∧ ob ≠ none ∧ oc ≠ none ∧ th ≠ FP.fin 0) ∧
      calcDev (some 2) (some (FP.fin 100)) (some (FP.fin 150)) (some (FP.fin 30500))
        = (some (FP.fin 30000), some (FP.fin (1 / 60))) := by
  refine ⟨?_, ?_, ?_⟩
  · intro k a b c hk ha hb hc
    have habk : (a * b * k : ℚ) ≠ 0 := mul_ne_zero (mul_ne_zero ha hb) hk
    refine ⟨?_, habk⟩
    have hg : k ≠ 0 ∧ (FP.fin a).truthy = true ∧ (FP.fin b).truthy = true ∧
        (FP.fin c).truthy = true := by
      refine ⟨hk, ?_, ?_, ?_⟩ <;> simp [FP.truthy, ha, hb, hc]
    simp only [calcDev]
    rw [if_pos hg]
    simp [FP.mul, FP.div, FP.sub, habk]
  · intro ok oa ob oc th dv h
    cases ok <;> cases oa <;> cases ob <;> cases oc <;>
      simp_all [calcDev]
    rename_i k x j e
    by_cases hg : k ≠ 0 ∧ x.truthy = true ∧ j.truthy = true ∧ e.truthy = true
    · rw [if_pos hg] at h
      obtain ⟨hth, _⟩ := by simpa [Prod.ext_iff] using h
      have hkt : (FP.fin k).truthy = true := by simp [FP.truthy, hg.1]
      have : ((x.mul j).mul (FP.fin k)).truthy = true :=
        fpTruthyMul (fpTruthyMul hg.2.1 hg.2.2.1) hkt
      rw [← hth]
      exact fpTruthyNeFinZero this
    · rw [if_neg hg] at h
      simp at h
  · have hg : (2 : ℚ) ≠ 0 ∧ (FP.fin 100).truthy = true ∧
        (FP.fin 150).truthy = true ∧ (FP.fin 30500).truthy = true := by
      refine ⟨by norm_num, ?_, ?_, ?_⟩ <;> simp [FP.truthy]
    simp only [calcDev, if_pos hg]
    norm_num [FP.mul, FP.div, FP.sub]

/-- Claim C9 witness: the formula conjunct applied at the example input. -/
theorem c9_theo_dev_witness :
    calcDev (some 2) (some (FP.fin 100)) (some (FP.fin 150)) (some (FP.fin 30500))
        = (some (FP.fin (100 * 150 * 2)), some (FP.fin (30500 / (100 * 150 * 2) - 1)))
      ∧ (100 * 150 * 2 : ℚ) ≠ 0 :=
  c9_theo_dev.1 2 100 150 30500 (by norm_num) (by norm_num) (by norm_num)
    (by norm_num)

/-- Claim C3: for the ETF instrument the resolver tries 1m/1d, 5m/5d,
15m/60d, the latest-quote endpoint, then 1d/5d, and returns the first
success in chain order; a successful history strategy returns the last
value of its dropna-cleaned series with its timestamp (the quote strategy
carries the quote-only sentinel); and with strategies 1 and 3 both
succeeding, strategy 1's value wins. -/
theorem c3_etf_resolver_chain :
    (∀ env : YFEnv,
        yf_last_price_smart env =
          [hist_last env.h1m1d, hist_last env.h5m5d, hist_last env.h15m60d,
            fastQuote env.fastInfoLast, hist_last env.h1d5d].findSome? id) ∧
      (∀ s : Series,
        hist_last (some s) =
          ((dropna s).getLast?).map fun p => (p.2, PTime.bar p.1)) ∧
      yf_last_price_smart ⟨some [(1, FP.fin 10)], none, some [(3, FP.fin 30)], none, none⟩
        = some (FP.fin 10, PTime.bar 1) := by
  refine ⟨?_, ?_, by decide⟩
  · intro env
    cases h1 : hist_last env.h1m1d <;>
    cases h2 : hist_last env.h5m5d <;>
    cases h3 : hist_last env.h15m60d <;>
    cases h4 : fastQuote env.fastInfoLast <;>
    cases h5 : hist_last env.h1d5d <;>
      simp [yf_last_price_smart, List.findSome?, h1, h2, h3, h4, h5]
  · intro s
    match s with
    | [] => rfl
    | p :: rest =>
      simp only [hist_last]
      rw [if_pos (by simp)]
      cases h : (dropna (p :: rest)).getLast? <;> simp [h]

/-- Claim C4: when every strategy of a resolver chain yields absence, the
resolver's result is absence (for the ETF chain and for the gold/FX chain,
where the latter terminates normally with both prices None), and an absent
ratio constant or an absent live price makes both calc outputs absent. -/
theorem c4_exhausted_chain_absence (env : YFEnv) (k : Option ℚ)
    (a b c : Option FP) :
    (hist_last env.h1m1d = none → hist_last env.h5m5d = none →
      hist_last env.h15m60d = none → fastQuote env.fastInfoLast = none →
      hist_last env.h1d5d = none → yf_last_price_smart env = none) ∧
    resolveGoldFx none none none none
      = Except.ok ((none, none), (none, none)) ∧
    calcDev none a b c = (none, none) ∧
    calcDev k none b c = (none, none) ∧
    calcDev k a none c = (none, none) ∧
    calcDev k a b none = (none, none) := by
  refine ⟨?_, rfl, ?_, ?_, ?_, ?_⟩
  · intro h1 h2 h3 h4 h5
    simp [yf_last_price_smart, h1, h2, h3, h4, h5]
  · cases a <;> cases b <;> cases c <;> rfl
  · cases k <;> cases b <;> cases c <;> rfl
  · cases k <;> cases a <;> cases c <;> rfl
  · cases k <;> cases a <;> cases b <;> rfl

/-- Claim C4 witness: the ETF chain with all five strategies absent, and
the gold/FX chain with quote and series absent for both instruments. -/
theorem c4_exhausted_chain_absence_witness :
    yf_last_price_smart ⟨none, none, none, none, none⟩ = none ∧
      resolveGoldFx none none none none
        = Except.ok ((none, none), (none, none)) := by
  have h := c4_exhausted_chain_absence ⟨none, none, none, none, none⟩
    none none none none
  exact ⟨h.1 rfl rfl rfl rfl rfl, h.2.1⟩

/-- Claim C1 counterexample: the XAU/USD quote succeeds with price 2000, the
USD/JPY quote fails, and the XAU 5-minute series is present with tail value
1999.  Contrary to the claim, XAU's own successful quote does not terminate
its chain: the fallback block (entered because the other instrument's quote
failed) overwrites the XAU price with the series tail 1999. -/
theorem c1_counterexample :
    resolveGoldFx (some (FP.fin 2000, none)) none (some [(5, FP.fin 1999)]) none
        = Except.ok ((some (FP.fin 1999), some (PTime.bar 5)), (none, none)) ∧
      tdQuotePrice (some (FP.fin 2000, none)) = some (FP.fin 2000) ∧
      (FP.fin 1999 : FP) ≠ FP.fin 2000 := by
  refine ⟨rfl, rfl, by decide⟩

/-- In a completed fallback run, the XAU component of the result is exactly
what the XAU fallback step produced. -/
theorem resolveGoldFxOkFst {qx qj : Option (FP × Option Nat)}
    {sx sj : Option Series}
    {res : (Option FP × Option PTime) × (Option FP × Option PTime)}
    (hq : tdQuotePrice qx = none ∨ tdQuotePrice qj = none)
    (hres : resolveGoldFx qx qj sx sj = Except.ok res) :
    fallbackStep (tdQuotePrice qx, tdQuoteTime qx) sx = Except.ok res.1 := by
  simp only [resolveGoldFx] at hres
  rw [if_pos hq] at hres
  cases h1 : fallbackStep (tdQuotePrice qx, tdQuoteTime qx) sx with
  | error e => rw [h1] at hres; simp at hres
  | ok xr =>
    rw [h1] at hres
    cases h2 : fallbackStep (tdQuotePrice qj, tdQuoteTime qj) sj with
    | error e => rw [h2] at hres; simp at hres
    | ok jr =>
      rw [h2] at hres
      simp only [Except.ok.injEq] at hres
      rw [← hres]

/-- In a completed fallback run, the JPY component of the result is exactly
what the JPY fallback step produced. -/
theorem resolveGoldFxOkSnd {qx qj : Option (FP × Option Nat)}
    {sx sj : Option Series}
    {res : (Option FP × Option PTime) × (Option FP × Option PTime)}
    (hq : tdQuotePrice qx = none ∨ tdQuotePrice qj = none)
    (hres : resolveGoldFx qx qj sx sj = Except.ok res) :
    fallbackStep (tdQuotePrice qj, tdQuoteTime qj) sj = Except.ok res.2 := by
  simp only [resolveGoldFx] at hres
  rw [if_pos hq] at hres
  cases h1 : fallbackStep (tdQuotePrice qx, tdQuoteTime qx) sx with
  | error e => rw [h1] at hres; simp at hres
  | ok xr =>
    rw [h1] at hres
    cases h2 : fallbackStep (tdQuotePrice qj, tdQuoteTime qj) sj with
    | error e => rw [h2] at hres; simp at hres
    | ok jr =>
      rw [h2] at hres
      simp only [Except.ok.injEq] at hres
      rw [← hres]

/-- Claim C1 amended: the quote endpoint is asked first for both
instruments, and when both quotes succeed each resolved price is its quote's
value; but the degraded series fallback is entered when either instrument's
quote yielded absence, and it then overwrites each instrument's price with
its own series tail whenever that series is present (even when that
instrument's own quote succeeded), keeping the quote value only when the
series is absent — stated for the XAU/USD component (res.1) and for the
USD/JPY component (res.2) alike. -/
theorem c1_amended_gold_fx_resolution :
    (∀ (px pj : FP) (tx tj : Option Nat) (sx sj : Option Series),
        resolveGoldFx (some (px, tx)) (some (pj, tj)) sx sj
          = Except.ok ((some px, tdQuoteTime (some (px, tx))),
              (some pj, tdQuoteTime (some (pj, tj))))) ∧
      (∀ (qx qj : Option (FP × Option Nat)) (s : Series) (sj : Option Series)
          (v : FP) (t : Nat)
          (res : (Option FP × Option PTime) × (Option FP × Option PTime)),
        (tdQuotePrice qx = none ∨ tdQuotePrice qj = none) →
        (dropna s).getLast? = some (t, v) →
        resolveGoldFx qx qj (some s) sj = Except.ok res →
        res.1 = (some v, some (PTime.bar t))) ∧
      (∀ (qx qj : Option (FP × Option Nat)) (sj : Option Series)
          (res : (Option FP × Option PTime) × (Option FP × Option PTime)),
        (tdQuotePrice qx = none ∨ tdQuotePrice qj = none) →
        resolveGoldFx qx qj none sj = Except.ok res →
        res.1 = (tdQuotePrice qx, tdQuoteTime qx)) ∧
      (∀ (qx qj : Option (FP × Option Nat)) (sx : Option Series) (s : Series)
          (v : FP) (t : Nat)
          (res : (Option FP × Option PTime) × (Option FP × Option PTime)),
        (tdQuotePrice qx = none ∨ tdQuotePrice qj = none) →
        (dropna s).getLast? = some (t, v) →
        resolveGoldFx qx qj sx (some s) = Except.ok res →
        res.2 = (some v, some (PTime.bar t))) ∧
      (∀ (qx qj : Option (FP × Option Nat)) (sx : Option Series)
          (res : (Option FP × Option PTime) × (Option FP × Option PTime)),
        (tdQuotePrice qx = none ∨ tdQuotePrice qj = none) →
        resolveGoldFx qx qj sx none = Except.ok res →
        res.2 = (tdQuotePrice qj, tdQuoteTime qj)) := by
  refine ⟨?_, ?_, ?_, ?_, ?_⟩
  · intro px pj tx tj sx sj
    simp [resolveGoldFx, tdQuotePrice]
  · intro qx qj s sj v t res hq hlast hres
    have h := resolveGoldFxOkFst hq hres
    have htp : tdTailPoint s = Except.ok (v, t) := by
      simp [tdTailPoint, hlast]
    simp only [fallbackStep, htp, Except.ok.injEq] at h
    rw [← h]
  · intro qx qj sj res hq hres
    have h := resolveGoldFxOkFst hq hres
    simp only [fallbackStep, Except.ok.injEq] at h
    rw [← h]
  · intro qx qj sx s v t res hq hlast hres
    have h := resolveGoldFxOkSnd hq hres
    have htp : tdTailPoint s = Except.ok (v, t) := by
      simp [tdTailPoint, hlast]
    simp only [fallbackStep, htp, Except.ok.injEq] at h
    rw [← h]
  · intro qx qj sx res hq hres
    have h := resolveGoldFxOkSnd hq hres
    simp only [fallbackStep, Except.ok.injEq] at h
    rw [← h]

/-- Claim C1 amended witness: at the counterexample input, the XAU/USD
overwrite conjunct and the USD/JPY keep-quote conjunct, each applied to the
completed run. -/
theorem c1_amended_gold_fx_resolution_witness :
    (((some (FP.fin 1999), some (PTime.bar 5)),
        ((none : Option FP), (none : Option PTime))) :
      (Option FP × Option PTime) × (Option FP × Option PTime)).1
      = (some (FP.fin 1999), some (PTime.bar 5)) ∧
    (((some (FP.fin 1999), some (PTime.bar 5)),
        ((none : Option FP), (none : Option PTime))) :
      (Option FP × Option PTime) × (Option FP × Option PTime)).2
      = (tdQuotePrice (none : Option (FP × Option Nat)),
          tdQuoteTime (none : Option (FP × Option Nat))) :=
  ⟨c1_amended_gold_fx_resolution.2.1 (some (FP.fin 2000, none)) none
      [(5, FP.fin 1999)] none (FP.fin 1999) 5
      ((some (FP.fin 1999), some (PTime.bar 5)), (none, none))
      (Or.inr rfl) rfl rfl,
    c1_amended_gold_fx_resolution.2.2.2.2 (some (FP.fin 2000, none)) none
      (some [(5, FP.fin 1999)])
      ((some (FP.fin 1999), some (PTime.bar 5)), (none, none))
      (Or.inr rfl) rfl⟩

/-- Claim C10 counterexample: a present spot-gold price of 0 is below 1000,
so under the claim a plausibility check fails and the warnings list must
appear; but the source guards each check with Python truthiness, 0.0 is
falsy, and no warnings key is emitted. -/
theorem c10_counterexample :
    (buildOut (some (FP.fin 0)) (some (FP.fin 150)) (some (FP.fin 30500))
        none none none none none none none none none).warnings = none ∧
      (0 : ℚ) < 1000 ∧ (some (FP.fin 0) : Option FP) ≠ none := by
  refine ⟨by decide, by norm_num, by decide⟩

/-- Claim C10 amended: the warnings list appears iff at least one check
fails, where each check requires the price to be present AND truthy
(nonzero) — a present zero price triggers no warning; a live FX rate of 600
yields exactly the warning string about USD/JPY, and the warnings never
change any numeric field of the record. -/
theorem c10_amended_warnings (xau jpy etf : Option FP) (kd k5 k15 : Option ℚ)
    (td dd t5 d5 t15 d15 : Option FP) :
    ((buildOut xau jpy etf kd td dd k5 t5 d5 k15 t15 d15).warnings ≠ none ↔
        (warnGuardLt xau 1000 = true ∨ warnGuardGt xau 8000 = true ∨
          warnGuardJpy jpy = true)) ∧
      (buildOut xau jpy etf kd td dd k5 t5 d5 k15 t15 d15).xauusd = xau ∧
      (buildOut xau jpy etf kd td dd k5 t5 d5 k15 t15 d15).usdjpy = jpy ∧
      (buildOut xau jpy etf kd td dd k5 t5 d5 k15 t15 d15).price1540 = etf ∧
      (buildOut xau jpy etf kd td dd k5 t5 d5 k15 t15 d15).k_day = kd ∧
      (buildOut xau jpy etf kd td dd k5 t5 d5 k15 t15 d15).theo_day = td ∧
      (buildOut xau jpy etf kd td dd k5 t5 d5 k15 t15 d15).dev_day = dd ∧
      (buildOut xau jpy etf kd td dd k5 t5 d5 k15 t15 d15).k_5m = k5 ∧
      (buildOut xau jpy etf kd td dd k5 t5 d5 k15 t15 d15).theo_5m = t5 ∧
      (buildOut xau jpy etf kd td dd k5 t5 d5 k15 t15 d15).dev_5m = d5 ∧
      (buildOut xau jpy etf kd td dd k5 t5 d5 k15 t15 d15).k_15m = k15 ∧
      (buildOut xau jpy etf kd td dd k5 t5 d5 k15 t15 d15).theo_15m = t15 ∧
      (buildOut xau jpy etf kd td dd k5 t5 d5 k15 t15 d15).dev_15m = d15 ∧
      (buildOut (some (FP.fin 2000)) (some (FP.fin 600)) etf kd td dd k5 t5 d5
        k15 t15 d15).warnings = some ["USD/JPY out of range?"] := by
  refine ⟨?_, rfl, rfl, rfl, rfl, rfl, rfl, rfl, rfl, rfl, rfl, rfl, rfl, ?_⟩
  · by_cases g1 : warnGuardLt xau 1000 <;>
    by_cases g2 : warnGuardGt xau 8000 <;>
    by_cases g3 : warnGuardJpy jpy <;>
      simp [buildOut, sanityWarnings, g1, g2, g3]
  · have g1 : warnGuardLt (some (FP.fin 2000)) 1000 = false := by decide
    have g2 : warnGuardGt (some (FP.fin 2000)) 8000 = false := by decide
    have g3 : warnGuardJpy (some (FP.fin 600)) = true := by decide
    simp [buildOut, sanityWarnings, g1, g2, g3]

/-- A joined cell quadruple whose three values are all finite. -/
def quadFin (q : Nat × FP × FP × FP) : Prop :=
  (∃ a, q.2.1 = FP.fin a) ∧ (∃ b, q.2.2.1 = FP.fin b) ∧ (∃ c, q.2.2.2 = FP.fin c)

/-- The finite value under an FP, with junk on the non-finite shapes. -/
def finVal : FP → ℚ
  | FP.fin a => a
  | _ => 0

/-- Total row coercion used to compare finRows with a plain map. -/
def rowForce (q : Nat × FP × FP × FP) : Row :=
  ⟨q.1, finVal q.2.1, finVal q.2.2.1, finVal q.2.2.2⟩

theorem fpFinOfNotInfNaN {v : FP} (h1 : v ≠ FP.inf ∧ v ≠ FP.ninf)
    (h2 : v.isNaN = false) : ∃ a, v = FP.fin a := by
  cases v <;> simp_all [FP.isNaN]

theorem finRows_eq_map {l : List (Nat × FP × FP × FP)}
    (h : ∀ q ∈ l, quadFin q) : finRows l = l.map rowForce := by
  induction l with
  | nil => rfl
  | cons q l ih =>
    obtain ⟨⟨a, ha⟩, ⟨b, hb⟩, ⟨c, hc⟩⟩ := h q (List.mem_cons_self q l)
    obtain ⟨t, a0, b0, c0⟩ := q
    simp only at ha hb hc
    subst ha hb hc
    simp only [finRows, List.filterMap_cons, List.map_cons]
    rw [← finRows]
    rw [ih fun q hq => h q (List.mem_cons_of_mem _ hq)]
    rfl

theorem finRows_tailList {l : List (Nat × FP × FP × FP)} (n : Nat)
    (h : ∀ q ∈ l, quadFin q) :
    finRows (tailList l n) = tailList (finRows l) n := by
  have h2 : ∀ q ∈ tailList l n, quadFin q := fun q hq => h q (mem_tailList hq)
  rw [finRows_eq_map h, finRows_eq_map h2]
  unfold tailList
  rw [List.length_map, List.map_drop]

theorem joinDropna_quadFin {x j e : Series}
    (hx : ∀ p ∈ x, p.2 ≠ FP.inf ∧ p.2 ≠ FP.ninf)
    (hj : ∀ p ∈ j, p.2 ≠ FP.inf ∧ p.2 ≠ FP.ninf)
    (he : ∀ p ∈ e, p.2 ≠ FP.inf ∧ p.2 ≠ FP.ninf) :
    ∀ q ∈ joinDropna x j e, quadFin q := by
  rintro ⟨t, a, b, c⟩ hq
  rw [mem_joinDropna] at hq
  obtain ⟨-, hxa, hjb, hec, hna, hnb, hnc⟩ := hq
  exact ⟨fpFinOfNotInfNaN (hx _ (lookupTs_mem hxa)) hna,
    fpFinOfNotInfNaN (hj _ (lookupTs_mem hjb)) hnb,
    fpFinOfNotInfNaN (he _ (lookupTs_mem hec)) hnc⟩

/-- Claim C5 counterexample: all three series share the timestamps 0..3 and
the etf series carries +inf at timestamp 1.  With tail = 3, the source
takes the tail of the NaN-cleaned join BEFORE dropping the inf row and thus
returns only the 2 rows at timestamps 2 and 3, while the claim (tail of the
joined-and-cleaned table) yields the 3 rows at timestamps 0, 2 and 3. -/
theorem c5_counterexample :
    align_join (some [(0, FP.fin 1), (1, FP.fin 1), (2, FP.fin 1), (3, FP.fin 1)])
        (some [(0, FP.fin 1), (1, FP.fin 1), (2, FP.fin 1), (3, FP.fin 1)])
        (some [(0, FP.fin 1), (1, FP.inf), (2, FP.fin 1), (3, FP.fin 1)])
        (some 3)
      = some [⟨2, 1, 1, 1⟩, ⟨3, 1, 1, 1⟩] ∧
    align_join_spec (some [(0, FP.fin 1), (1, FP.fin 1), (2, FP.fin 1), (3, FP.fin 1)])
        (some [(0, FP.fin 1), (1, FP.fin 1), (2, FP.fin 1), (3, FP.fin 1)])
        (some [(0, FP.fin 1), (1, FP.inf), (2, FP.fin 1), (3, FP.fin 1)])
        (some 3)
      = some [⟨0, 1, 1, 1⟩, ⟨2, 1, 1, 1⟩, ⟨3, 1, 1, 1⟩] ∧
    some [(⟨2, 1, 1, 1⟩ : Row), ⟨3, 1, 1, 1⟩]
      ≠ some [(⟨0, 1, 1, 1⟩ : Row), ⟨2, 1, 1, 1⟩, ⟨3, 1, 1, 1⟩] := by
  refine ⟨by decide, by decide, by decide⟩

/-- Claim C5 amended: after the join, rows containing NaN are dropped
before the tail is taken, while rows containing an infinity are dropped
only after the tail; hence when no ±inf occurs in any input series (the
only non-finite values being NaN), the result coincides with the claim:
the most recent tail-many rows of the joined-and-cleaned table. -/
theorem c5_amended_tail_order (x j e : Series) (tl : Option Nat)
    (hx : ∀ p ∈ x, p.2 ≠ FP.inf ∧ p.2 ≠ FP.ninf)
    (hj : ∀ p ∈ j, p.2 ≠ FP.inf ∧ p.2 ≠ FP.ninf)
    (he : ∀ p ∈ e, p.2 ≠ FP.inf ∧ p.2 ≠ FP.ninf) :
    align_join (some x) (some j) (some e) tl
      = align_join_spec (some x) (some j) (some e) tl := by
  have hfin := joinDropna_quadFin hx hj he
  unfold align_join align_join_spec
  cases tl with
  | none => rfl
  | some n =>
    by_cases hn : n = 0
    · simp [hn]
    · simp only [hn, ne_eq, not_false_iff, if_true]
      rw [finRows_tailList n hfin]

/-- Claim C5 amended witness: a join with a NaN cell and tail = 1, where
the source and the amended description agree. -/
theorem c5_amended_tail_order_witness :
    align_join (some [(0, FP.fin 1), (1, FP.nan)])
        (some [(0, FP.fin 1), (1, FP.fin 1)])
        (some [(0, FP.fin 1), (1, FP.fin 1)]) (some 1)
      = align_join_spec (some [(0, FP.fin 1), (1, FP.nan)])
          (some [(0, FP.fin 1), (1, FP.fin 1)])
          (some [(0, FP.fin 1), (1, FP.fin 1)]) (some 1) :=
  c5_amended_tail_order [(0, FP.fin 1), (1, FP.nan)]
    [(0, FP.fin 1), (1, FP.fin 1)] [(0, FP.fin 1), (1, FP.fin 1)] (some 1)
    (by decide) (by decide) (by decide)

theorem ifLengthNeSomeNil {α : Type} (l : List α) :
    (if 0 < l.length then some l else none) ≠ some ([] : List α) := by
  by_cases h : 0 < l.length
  · rw [if_pos h]
    intro he
    rw [Option.some.injEq] at he
    rw [he] at h
    simp at h
  · rw [if_neg h]
    simp

theorem align_join_no_tail_eq {x j e : Series} {df : List Row}
    (h : align_join (some x) (some j) (some e) none = some df) :
    df = finRows (joinDropna x j e) := by
  simp only [align_join] at h
  by_cases hl : 0 < (finRows (joinDropna x j e)).length
  · rw [if_pos hl] at h
    rw [Option.some.injEq] at h
    exact h.symm
  · rw [if_neg hl] at h
    exact absurd h (by simp)

theorem fpFinOfIsfinite {v : FP} (h : v.isfinite = true) : ∃ a, v = FP.fin a := by
  cases v <;> simp_all [FP.isfinite]

/-- Claim C6: the aligner is absent whenever any input series is absent; it
never presents an empty frame (zero surviving rows give absence); on
all-finite series with no tail it keeps exactly the timestamps present in
all three inputs; and on series of lengths 10, 8 and 12 with exactly 6
overlapping timestamps and all values finite the result has exactly 6
rows. -/
theorem c6_aligner_inner_join :
    (∀ (oj oe : Option Series) (tl : Option Nat), align_join none oj oe tl = none) ∧
    (∀ (ox oe : Option Series) (tl : Option Nat), align_join ox none oe tl = none) ∧
    (∀ (ox oj : Option Series) (tl : Option Nat), align_join ox oj none tl = none) ∧
    (∀ (ox oj oe : Option Series) (tl : Option Nat), align_join ox oj oe tl ≠ some []) ∧
    (∀ x j e : Series,
      (∀ p ∈ x, p.2.isfinite = true) → (∀ p ∈ j, p.2.isfinite = true) →
      (∀ p ∈ e, p.2.isfinite = true) →
      ∀ df, align_join (some x) (some j) (some e) none = some df →
        ∀ t : Nat, (∃ r ∈ df, r.t = t) ↔
          (t ∈ x.map Prod.fst ∧ t ∈ j.map Prod.fst ∧ t ∈ e.map Prod.fst)) ∧
    align_join (some ((List.range 10).map fun t => (t, FP.fin 1)))
        (some ((List.range 8).map fun t => (t + 4, FP.fin 1)))
        (some ((List.range 12).map fun t => (t, FP.fin 1))) none
      = some [⟨4, 1, 1, 1⟩, ⟨5, 1, 1, 1⟩, ⟨6, 1, 1, 1⟩,
              ⟨7, 1, 1, 1⟩, ⟨8, 1, 1, 1⟩, ⟨9, 1, 1, 1⟩] := by
  refine ⟨?_, ?_, ?_, ?_, ?_, by decide⟩
  · intro oj oe tl
    cases oj <;> cases oe <;> rfl
  · intro ox oe tl
    cases ox <;> cases oe <;> rfl
  · intro ox oj tl
    cases ox <;> cases oj <;> rfl
  · intro ox oj oe tl
    cases ox with
    | none => cases oj <;> cases oe <;> simp [align_join]
    | some x =>
      cases oj with
      | none => cases oe <;> simp [align_join]
      | some j =>
        cases oe with
        | none => simp [align_join]
        | some e =>
          simp only [align_join]
          exact ifLengthNeSomeNil _
  · intro x j e hx hj he df hdf t
    have hdfe := align_join_no_tail_eq hdf
    subst hdfe
    constructor
    · rintro ⟨r, hr, rfl⟩
      have hmem := mem_finRows.1 hr
      rw [mem_joinDropna] at hmem
      obtain ⟨-, hxa, hjb, hec, -⟩ := hmem
      exact ⟨lookupTs_isSome_iff.1 ⟨_, hxa⟩, lookupTs_isSome_iff.1 ⟨_, hjb⟩,
        lookupTs_isSome_iff.1 ⟨_, hec⟩⟩
    · rintro ⟨htx, htj, hte⟩
      obtain ⟨a, ha⟩ := lookupTs_isSome_iff.2 htx
      obtain ⟨b, hb⟩ := lookupTs_isSome_iff.2 htj
      obtain ⟨c, hc⟩ := lookupTs_isSome_iff.2 hte
      obtain ⟨qa, hqa⟩ := fpFinOfIsfinite (hx _ (lookupTs_mem ha))
      obtain ⟨qb, hqb⟩ := fpFinOfIsfinite (hj _ (lookupTs_mem hb))
      obtain ⟨qc, hqc⟩ := fpFinOfIsfinite (he _ (lookupTs_mem hc))
      subst hqa hqb hqc
      have hkey : t ∈ joinKeys x j e := mem_joinKeys.2 (Or.inl htx)
      have hmem : (t, FP.fin qa, FP.fin qb, FP.fin qc) ∈ joinDropna x j e :=
        mem_joinDropna.2 ⟨hkey, ha, hb, hc, rfl, rfl, rfl⟩
      exact ⟨⟨t, qa, qb, qc⟩, mem_finRows.2 hmem, rfl⟩

/-- Claim C6 witness: the membership characterization applied to three
singleton series sharing timestamp 0. -/
theorem c6_aligner_inner_join_witness :
    (∃ r ∈ [(⟨0, 1, 1, 1⟩ : Row)], r.t = 0) ↔
      (0 ∈ [((0 : Nat), FP.fin 1)].map Prod.fst ∧
        0 ∈ [((0 : Nat), FP.fin 1)].map Prod.fst ∧
        0 ∈ [((0 : Nat), FP.fin 1)].map Prod.fst) :=
  c6_aligner_inner_join.2.2.2.2.1 [(0, FP.fin 1)] [(0, FP.fin 1)]
    [(0, FP.fin 1)] (by decide) (by decide) (by decide)
    [⟨0, 1, 1, 1⟩] (by decide) 0
